import Mathlib

/-!
# dap_uart.c : UART ports, circular receive buffer, transmit path, port resolution

A shallow embedding of `src/dap_uart.c`.

Conventions of the embedding.

* Pointers are machine addresses (`Int`).  A port record carries the address of
  the first cell of its `buf_rx` array (`buf_rx`) and a byte store `mem` indexed
  by address, so that `read_ptr`, `dap_next_addr` and the stores of `dap_rx_cp`
  are computed exactly as the C expressions compute them, also when the
  resulting address is not inside `buf_rx`.
* The header `dap.h` is not part of the sources.  The values of its macros
  (`DAP_UART_BUF_SIZE`, `DAP_ERROR`, `DAP_DATA_SRC1`, `DAP_DATA_SRC2`,
  `DAP_NUM_OF_SRC`) are parameters, collected in `DapConsts`.
* `ASSERT(cond, msg, val)` is a reporting macro of `dap.h`: the statements that
  follow an `ASSERT(ASSERT_FAIL, ...)` (a `return`, the rest of a function) are
  executed, so it changes no state and is left out of the state transformers.
* `unsigned int` arithmetic is taken modulo `2 ^ 32`.
* Each port record has its own byte store.  `dap_rx_cp` carries out the address
  arithmetic and the stores of the C code on that store, also for an address
  outside `buf_rx`; which other object of the process lies at such an address
  depends on the layout of `struct DAP_UART` and is not modelled.  Whether a
  call is a defined C execution (every store inside `buf_rx`) is decided by
  `dap_rx_cp_exec`, which has no outcome otherwise.  `num_unread` is a natural
  number: the width of the field is declared in `dap.h`.
* System calls are not executed: `write` and `read` are functions supplied by
  the caller of the model, and every call is appended to a trace.
-/

namespace Dap

/-! ## Data model -/

/-- Values of the macros of `dap.h` used by `dap_uart.c`. -/
structure DapConsts where
  DAP_UART_BUF_SIZE : Nat
  DAP_ERROR : Int
  DAP_DATA_SRC1 : Int
  DAP_DATA_SRC2 : Int
  DAP_NUM_OF_SRC : Int

/-- The fields of `struct DAP_UART` that `dap_uart.c` reads and writes.
`buf_rx` is the address of `u->buf_rx[0]`; `mem` gives the byte stored at each
address; `read_ptr` is an address; `buf_tx` is the content of the transmit
array. -/
structure DAP_UART where
  fd_uart : Int
  buf_tx : List Nat
  num_to_tx : Int
  buf_rx : Int
  mem : Int → Nat
  read_ptr : Int
  num_unread : Nat

/-- The fields of `struct DAP_UART_EPOLL` (the scratch event areas are inputs of
the thread model). -/
structure DAP_UART_EPOLL where
  epfd : Int
  numOpenFds : Int

/-- The file-scope objects `uart1`, `uart2` and `uep`. -/
structure Globals where
  uart1 : DAP_UART
  uart2 : DAP_UART
  uep : DAP_UART_EPOLL

/-- System calls issued by the modelled functions. -/
inductive SysCall where
  | write (fd : Int) (buf : List Nat) (count : Int)
  | read (fd : Int) (count : Nat)
  | close (fd : Int)
  deriving DecidableEq, Repr

/-- One entry of `uep.evlist`: the `events` bit mask and `data.fd`. -/
structure EpollEvent where
  events : Nat
  fd : Int
  deriving DecidableEq, Repr

/-- Bit `EPOLLIN` of `<sys/epoll.h>`. -/
def EPOLLIN : Nat := 0x001
/-- Bit `EPOLLERR` of `<sys/epoll.h>`. -/
def EPOLLERR : Nat := 0x008
/-- Bit `EPOLLHUP` of `<sys/epoll.h>`. -/
def EPOLLHUP : Nat := 0x010

/-- The offset of `read_ptr` from the start of `buf_rx` (`u->read_ptr - u->buf_rx`). -/
def read_cursor (u : DAP_UART) : Int := u.read_ptr - u.buf_rx

/-- The byte of `buf_rx` at offset `i`. -/
def rx_cell (u : DAP_UART) (i : Int) : Nat := u.mem (u.buf_rx + i)

/-! ## Buffer reset and close (lines 31-49) -/

/-- `dap_port_clr_rx_buffer`: `memset(u->buf_rx, 0, sizeof(u->buf_rx))`,
`u->read_ptr = u->buf_rx`, `u->num_unread = 0`. -/
def dap_port_clr_rx_buffer (k : DapConsts) (u : DAP_UART) : DAP_UART :=
  { u with
    mem := fun a =>
      if u.buf_rx ≤ a ∧ a < u.buf_rx + (k.DAP_UART_BUF_SIZE : Int) then 0 else u.mem a
    read_ptr := u.buf_rx
    num_unread := 0 }

/-- `dap_port_clr_tx_buffer`: `memset(u->buf_tx, 0, sizeof(u->buf_tx))`,
`u->num_to_tx = 0`. -/
def dap_port_clr_tx_buffer (u : DAP_UART) : DAP_UART :=
  { u with
    buf_tx := List.replicate u.buf_tx.length 0
    num_to_tx := 0 }

/-- `dap_port_close`: `close(u->fd_uart)`, `u->fd_uart = 0`, then both buffers
are cleared.  Returns the new port and the system call issued. -/
def dap_port_close (k : DapConsts) (u : DAP_UART) : DAP_UART × List SysCall :=
  (dap_port_clr_tx_buffer (dap_port_clr_rx_buffer k { u with fd_uart := 0 }),
   [SysCall.close u.fd_uart])

/-! ## Circular buffer (lines 137-194) -/

/-- `dap_next_addr`: `maxptr = u->buf_rx + DAP_UART_BUF_SIZE`,
`ptr = u->read_ptr + u->num_unread`, and `ptr = ptr - maxptr` when
`ptr >= maxptr`.  The difference of the two pointers is the value stored in
`ptr`. -/
def dap_next_addr (k : DapConsts) (u : DAP_UART) : Int :=
  let maxptr : Int := u.buf_rx + (k.DAP_UART_BUF_SIZE : Int)
  let ptr : Int := u.read_ptr + (u.num_unread : Int)
  if ptr ≥ maxptr then ptr - maxptr else ptr

/-- The copy loop of `dap_rx_cp` (lines 182-188), `n` iterations left:
`dst = ptr + index; *dst = *src; src++; index++; index = index % DAP_UART_BUF_SIZE`.
Returns the final `index` and the byte store.  `src` is the list of bytes at
the source pointer (a source shorter than `n` reads as `0`). -/
def dap_rx_cp_loop (k : DapConsts) (ptr : Int) :
    Nat → List Nat → Nat → (Int → Nat) → Nat × (Int → Nat)
  | 0, _, index, mem => (index, mem)
  | n + 1, src, index, mem =>
    let dst : Int := ptr + (index : Int)
    let mem1 : Int → Nat := fun a => if a = dst then src.headD 0 else mem a
    let index1 : Nat := (index + 1) % 2 ^ 32
    dap_rx_cp_loop k ptr n src.tail (index1 % k.DAP_UART_BUF_SIZE) mem1

/-- `dap_rx_cp (num, src, u)`: returns at once for `num == 0` and for a null
`src` (`none`); otherwise `ptr = dap_next_addr(u)`, `index = ptr - u->buf_rx`
(converted to `unsigned int`), the copy loop, `u->num_unread += num` and
`u->read_ptr = ptr + index`.  The port is passed by value, so the test
`u == NULL` has no counterpart.  The stores are carried out on the store of
the port at whatever address `dst` is; `dap_rx_cp_exec` below tells whether
they all fall inside `buf_rx`. -/
def dap_rx_cp (k : DapConsts) (num : Nat) (src : Option (List Nat)) (u : DAP_UART) :
    DAP_UART :=
  if num = 0 then u
  else
    match src with
    | none => u
    | some bytes =>
      let ptr : Int := dap_next_addr k u
      let index : Nat := ((ptr - u.buf_rx) % 2 ^ 32).toNat
      let r := dap_rx_cp_loop k ptr num bytes index u.mem
      { u with
        mem := r.2
        num_unread := u.num_unread + num
        read_ptr := ptr + (r.1 : Int) }

/-- The unread region as section 3 of the specification words it: the
`num_unread` bytes of `buf_rx` starting at offset `read_ptr - buf_rx`, the
offset wrapping modulo `DAP_UART_BUF_SIZE`.  (The source has no reader of the
buffer; this is the observation the round-trip property is stated with.) -/
def spec_unread_region (k : DapConsts) (u : DAP_UART) : List Nat :=
  (List.range u.num_unread).map
    (fun (i : Nat) => rx_cell u ((read_cursor u + (i : Int)) % (k.DAP_UART_BUF_SIZE : Int)))

/-! ## Port resolution and receive dispatch (lines 115-134, 197-221) -/

/-- `dap_which_uart (fd, u1, u2)`. -/
def dap_which_uart (k : DapConsts) (fd : Int) (u1 u2 : DAP_UART) : Int :=
  if u1.fd_uart ≤ 0 ∧ u2.fd_uart ≤ 0 then k.DAP_ERROR
  else if fd = u1.fd_uart then k.DAP_DATA_SRC1
  else if fd = u2.fd_uart then k.DAP_DATA_SRC2
  else k.DAP_ERROR

/-- Conversion of an `int` to `unsigned int`. -/
def to_uint (x : Int) : Nat := (x % 2 ^ 32).toNat

/-- Conversion of an `unsigned int` to `int` (two's complement). -/
def to_int (n : Nat) : Int := if n < 2 ^ 31 then (n : Int) else (n : Int) - 2 ^ 32

/-- `dap_uart_rx_copy (num, fd, buf)` on the globals `uart1`, `uart2`:
`unsigned int src = dap_which_uart(fd, &uart1, &uart2)`, then the `switch` on
`src` (case labels converted to the type of `src`), and `return src`.  The
`int num` is converted to the `unsigned int` parameter of `dap_rx_cp`. -/
def dap_uart_rx_copy (k : DapConsts) (num : Int) (fd : Int) (buf : Option (List Nat))
    (g : Globals) : Int × Globals :=
  let src : Nat := to_uint (dap_which_uart k fd g.uart1 g.uart2)
  if src = to_uint k.DAP_DATA_SRC1 then
    (to_int src, { g with uart1 := dap_rx_cp k (to_uint num) buf g.uart1 })
  else if src = to_uint k.DAP_DATA_SRC2 then
    (to_int src, { g with uart2 := dap_rx_cp k (to_uint num) buf g.uart2 })
  else
    (to_int src, g)

/-! ## Defined executions of the receive copy -/

/-- The addresses `dst` through which the copy loop of `dap_rx_cp` stores, in
the order of the stores: `dst = ptr + index` at each of the `n` iterations,
with `index` advanced as in `dap_rx_cp_loop`. -/
def dap_rx_cp_loop_dsts (k : DapConsts) (ptr : Int) : Nat → Nat → List Int
  | 0, _ => []
  | n + 1, index =>
    (ptr + (index : Int)) ::
      dap_rx_cp_loop_dsts k ptr n (((index + 1) % 2 ^ 32) % k.DAP_UART_BUF_SIZE)

/-- The store addresses of the call `dap_rx_cp (num, src, u)`: none when the
function returns at once, else those of the loop started at
`ptr = dap_next_addr(u)`, `index = ptr - u->buf_rx`. -/
def dap_rx_cp_dsts (k : DapConsts) (num : Nat) (src : Option (List Nat)) (u : DAP_UART) :
    List Int :=
  if num = 0 then []
  else
    match src with
    | none => []
    | some _ =>
      dap_rx_cp_loop_dsts k (dap_next_addr k u) num
        (((dap_next_addr k u - u.buf_rx) % 2 ^ 32).toNat)

/-- `dap_rx_cp` as a C execution.  The only object the function may store into
through `dst` is the array `u->buf_rx`: the result is `some` port when every
store address is a cell of `buf_rx`, and `none` (a store outside the array,
where C defines no behaviour and the process may fault or overwrite another
object) otherwise. -/
def dap_rx_cp_exec (k : DapConsts) (num : Nat) (src : Option (List Nat)) (u : DAP_UART) :
    Option DAP_UART :=
  if (dap_rx_cp_dsts k num src u).all
      (fun d => decide (u.buf_rx ≤ d ∧ d < u.buf_rx + (k.DAP_UART_BUF_SIZE : Int))) then
    some (dap_rx_cp k num src u)
  else none

/-- `dap_uart_rx_copy` as a C execution: the dispatch of `dap_uart_rx_copy`
with the call of `dap_rx_cp` replaced by `dap_rx_cp_exec`. -/
def dap_uart_rx_copy_exec (k : DapConsts) (num : Int) (fd : Int) (buf : Option (List Nat))
    (g : Globals) : Option (Int × Globals) :=
  let src : Nat := to_uint (dap_which_uart k fd g.uart1 g.uart2)
  if src = to_uint k.DAP_DATA_SRC1 then
    (dap_rx_cp_exec k (to_uint num) buf g.uart1).map
      (fun u => (to_int src, { g with uart1 := u }))
  else if src = to_uint k.DAP_DATA_SRC2 then
    (dap_rx_cp_exec k (to_uint num) buf g.uart2).map
      (fun u => (to_int src, { g with uart2 := u }))
  else
    some (to_int src, g)

/-! ## Transmit (lines 224-251) -/

/-- `dap_port_transmit (u)`.  `os_write fd buf count` is the value the call
`write(fd, buf, count)` returns.  The result is the returned `int`, the port
afterwards and the system calls issued. -/
def dap_port_transmit (k : DapConsts) (os_write : Int → List Nat → Int → Int)
    (u : DAP_UART) : Int × DAP_UART × List SysCall :=
  if u.fd_uart = 0 then (k.DAP_ERROR, u, [])
  else if u.num_to_tx = 0 then (0, u, [])
  else
    let result : Int := os_write u.fd_uart u.buf_tx u.num_to_tx
    (result, { u with num_to_tx := 0 }, [SysCall.write u.fd_uart u.buf_tx u.num_to_tx])

/-! ## Receive thread (lines 316-367) -/

/-- Body of the `for` loop of `dap_uart_epoll_thr` for one entry of `evlist`.
`os_read tr fd` is the outcome of `read(fd, buf, DAP_UART_BUF_SIZE)` after the
system calls `tr`: the returned count and the bytes placed in `buf`.  The
hang-up branch consists of the report and of the statement `close(uep.)`, whose
argument is not written out in the source; `hup_arg` stands for it.  That
branch and the `EPOLLERR` branch assign no object. -/
def dap_uart_epoll_event (k : DapConsts) (os_read : List SysCall → Int → Int × List Nat)
    (hup_arg : Int) (st : Globals × List SysCall) (e : EpollEvent) :
    Globals × List SysCall :=
  if e.events &&& EPOLLIN ≠ 0 then
    let r := os_read st.2 e.fd
    let tr := st.2 ++ [SysCall.read e.fd k.DAP_UART_BUF_SIZE]
    if r.1 = -1 then (st.1, tr)
    else ((dap_uart_rx_copy k r.1 e.fd (some r.2) st.1).2, tr)
  else if e.events &&& EPOLLHUP ≠ 0 then
    (st.1, st.2 ++ [SysCall.close hup_arg])
  else
    st

/-- Outcome of one `epoll_wait` call: the ready events, `-1` with
`errno == EINTR`, or `-1` with another error. -/
inductive WaitResult where
  | ready (evs : List EpollEvent)
  | eintr
  | failed

/-- The `while (uep.numOpenFds > 0)` loop of `dap_uart_epoll_thr`, driven by
the list of the outcomes of the successive `epoll_wait` calls; when the list
is used up the thread is blocked in `epoll_wait`. -/
def dap_uart_epoll_loop (k : DapConsts) (os_read : List SysCall → Int → Int × List Nat)
    (hup_arg : Int) : List WaitResult → Globals × List SysCall → Globals × List SysCall
  | [], st => st
  | w :: ws, st =>
    if st.1.uep.numOpenFds > 0 then
      match w with
      | WaitResult.eintr => dap_uart_epoll_loop k os_read hup_arg ws st
      | WaitResult.failed => st
      | WaitResult.ready evs =>
        dap_uart_epoll_loop k os_read hup_arg ws
          (evs.foldl (dap_uart_epoll_event k os_read hup_arg) st)
    else st

/-- `dap_uart_epoll_thr`: `uep.numOpenFds = DAP_NUM_OF_SRC`, then the loop. -/
def dap_uart_epoll_thr (k : DapConsts) (os_read : List SysCall → Int → Int × List Nat)
    (hup_arg : Int) (waits : List WaitResult) (g : Globals) : Globals × List SysCall :=
  dap_uart_epoll_loop k os_read hup_arg waits
    ({ g with uep := { g.uep with numOpenFds := k.DAP_NUM_OF_SRC } }, [])

/-! ## Concrete constants and ports used in the scenarios -/

/-- Constants of the scenarios of section 8 of the specification:
`DAP_UART_BUF_SIZE = 8`, with distinct sample values for the result codes. -/
def consts8 : DapConsts :=
  { DAP_UART_BUF_SIZE := 8
    DAP_ERROR := -1
    DAP_DATA_SRC1 := 0
    DAP_DATA_SRC2 := 1
    DAP_NUM_OF_SRC := 2 }

/-- A port with descriptor `fd` whose `buf_rx` starts at address `base`, with
`read_ptr` at offset `cursor`, `unread` unread bytes and an all-zero store. -/
def mkPort (fd base cursor : Int) (unread : Nat) : DAP_UART :=
  { fd_uart := fd
    buf_tx := []
    num_to_tx := 0
    buf_rx := base
    mem := fun _ => 0
    read_ptr := base + cursor
    num_unread := unread }

/-- The port on descriptor `5` after `dap_port_clr_rx_buffer`, `dap_rx_cp` of the
one byte `[1]` and `dap_rx_cp` of the four bytes `[0, 0, 0, 0]`, with
`DAP_UART_BUF_SIZE = 8`. -/
def port5_after_five : DAP_UART :=
  dap_rx_cp consts8 4 (some [0, 0, 0, 0])
    (dap_rx_cp consts8 1 (some [1]) (dap_port_clr_rx_buffer consts8 (mkPort 5 4096 0 0)))

/-! ## Zero-length append, transmit, port resolution, receive dispatch -/

/-- C8.  `dap_rx_cp` called with `num == 0` returns the port unchanged, for
every port and every source pointer (null or not): the byte store, `read_ptr`,
`num_unread` and all other fields are those of the argument. -/
theorem dap_rx_cp_zero_noop (k : DapConsts) (src : Option (List Nat)) (u : DAP_UART) :
    dap_rx_cp k 0 src u = u := by
  simp [dap_rx_cp]

/-- C7.  On a port whose descriptor is the unopened value `0`,
`dap_port_transmit` returns `DAP_ERROR`, issues no system call (in particular
no `write`) and leaves the port as it was, whatever `num_to_tx` and `buf_tx`
hold. -/
theorem dap_port_transmit_unopened (k : DapConsts) (os_write : Int → List Nat → Int → Int)
    (u : DAP_UART) (h : u.fd_uart = 0) :
    dap_port_transmit k os_write u = (k.DAP_ERROR, u, []) := by
  simp [dap_port_transmit, h]

/-- C7 at a concrete port: descriptor `0`, three bytes queued. -/
theorem dap_port_transmit_unopened_witness :
    dap_port_transmit consts8 (fun _ _ c => c)
        { mkPort 0 4096 0 0 with buf_tx := [72, 105, 33], num_to_tx := 3 }
      = (consts8.DAP_ERROR,
         { mkPort 0 4096 0 0 with buf_tx := [72, 105, 33], num_to_tx := 3 }, []) :=
  dap_port_transmit_unopened consts8 (fun _ _ c => c)
    { mkPort 0 4096 0 0 with buf_tx := [72, 105, 33], num_to_tx := 3 } rfl

/-- C5, as the claim states it, fails: with descriptor `0` and five bytes
queued, `num_to_tx` is still `5` after `dap_port_transmit`. -/
theorem dap_port_transmit_keeps_count_when_unopened :
    (dap_port_transmit consts8 (fun _ _ c => c)
        { mkPort 0 4096 0 0 with buf_tx := [72, 101, 108, 108, 111], num_to_tx := 5 }).2.1.num_to_tx
      = 5
    ∧ (dap_port_transmit consts8 (fun _ _ c => c)
        { mkPort 0 4096 0 0 with buf_tx := [72, 101, 108, 108, 111], num_to_tx := 5 }).2.1.num_to_tx
      ≠ 0 := by
  decide

/-- C5, amended.  For every port whose descriptor is not `0`, every
`num_to_tx` and every value returned by `write` (failure `-1`, a short count,
the full count), `num_to_tx` is `0` after `dap_port_transmit`. -/
theorem dap_port_transmit_clears_count (k : DapConsts)
    (os_write : Int → List Nat → Int → Int) (u : DAP_UART) (h : u.fd_uart ≠ 0) :
    (dap_port_transmit k os_write u).2.1.num_to_tx = 0 := by
  unfold dap_port_transmit
  by_cases h0 : u.num_to_tx = 0
  · simp [h, h0]
  · simp [h, h0]

/-- C5 amended, at a concrete port: descriptor `5`, three bytes queued, `write`
failing with `-1`. -/
theorem dap_port_transmit_clears_count_witness :
    (dap_port_transmit consts8 (fun _ _ _ => -1)
        { mkPort 5 4096 0 0 with buf_tx := [72, 105, 33], num_to_tx := 3 }).2.1.num_to_tx = 0 :=
  dap_port_transmit_clears_count consts8 (fun _ _ _ => -1)
    { mkPort 5 4096 0 0 with buf_tx := [72, 105, 33], num_to_tx := 3 } (by decide)

/-- C4, as the claim states it, fails: with port `a` unopened (descriptor `0`)
and port `b` open on descriptor `5`, `fd = 0` resolves to `DAP_DATA_SRC1`, which
is not the error code; and with both ports unopened `fd = 0` equals the
descriptor of `a` yet the result is `DAP_ERROR`. -/
theorem dap_which_uart_sentinel_resolves :
    dap_which_uart consts8 0 (mkPort 0 4096 0 0) (mkPort 5 8192 0 0) = consts8.DAP_DATA_SRC1
    ∧ consts8.DAP_DATA_SRC1 ≠ consts8.DAP_ERROR
    ∧ dap_which_uart consts8 0 (mkPort 0 4096 0 0) (mkPort 0 8192 0 0) = consts8.DAP_ERROR := by
  decide

/-- C4, amended.  `dap_which_uart (fd, a, b)` returns `DAP_ERROR` whenever
neither port is open (both descriptors `<= 0`).  When at least one port is
open it returns `DAP_DATA_SRC1` if `fd` equals the descriptor of `a`, else
`DAP_DATA_SRC2` if `fd` equals the descriptor of `b`, and `DAP_ERROR` for every
other `fd`.  An `fd` that is the descriptor of neither port always gives
`DAP_ERROR`; in particular `fd = 0` and `fd = -1` give `DAP_ERROR` when both
ports are open. -/
theorem dap_which_uart_spec (k : DapConsts) (fd : Int) (a b : DAP_UART) :
    ((a.fd_uart ≤ 0 ∧ b.fd_uart ≤ 0) → dap_which_uart k fd a b = k.DAP_ERROR)
    ∧ ((0 < a.fd_uart ∨ 0 < b.fd_uart) → fd = a.fd_uart →
        dap_which_uart k fd a b = k.DAP_DATA_SRC1)
    ∧ ((0 < a.fd_uart ∨ 0 < b.fd_uart) → fd ≠ a.fd_uart → fd = b.fd_uart →
        dap_which_uart k fd a b = k.DAP_DATA_SRC2)
    ∧ (fd ≠ a.fd_uart → fd ≠ b.fd_uart → dap_which_uart k fd a b = k.DAP_ERROR)
    ∧ (0 < a.fd_uart → 0 < b.fd_uart → (fd = 0 ∨ fd = -1) →
        dap_which_uart k fd a b = k.DAP_ERROR) := by
  refine ⟨?_, ?_, ?_, ?_, ?_⟩
  · intro h
    simp [dap_which_uart, h]
  · intro h hfd
    have hn : ¬ (a.fd_uart ≤ 0 ∧ b.fd_uart ≤ 0) := by omega
    simp [dap_which_uart, hn, hfd]
  · intro h hna hfd
    have hn : ¬ (a.fd_uart ≤ 0 ∧ b.fd_uart ≤ 0) := by omega
    unfold dap_which_uart
    rw [if_neg hn, if_neg hna, if_pos hfd]
  · intro hna hnb
    unfold dap_which_uart
    split
    · rfl
    · simp [hna, hnb]
  · intro ha hb hfd
    have hna : fd ≠ a.fd_uart := by omega
    have hnb : fd ≠ b.fd_uart := by omega
    unfold dap_which_uart
    split
    · rfl
    · simp [hna, hnb]

/-- C4 amended, on the ports with descriptors `5` and `7`: `5` and `7` resolve
to the two identities, `0`, `-1` and `6` to the error code. -/
theorem dap_which_uart_spec_witness :
    dap_which_uart consts8 5 (mkPort 5 4096 0 0) (mkPort 7 8192 0 0) = consts8.DAP_DATA_SRC1
    ∧ dap_which_uart consts8 7 (mkPort 5 4096 0 0) (mkPort 7 8192 0 0) = consts8.DAP_DATA_SRC2
    ∧ dap_which_uart consts8 0 (mkPort 5 4096 0 0) (mkPort 7 8192 0 0) = consts8.DAP_ERROR
    ∧ dap_which_uart consts8 (-1) (mkPort 5 4096 0 0) (mkPort 7 8192 0 0) = consts8.DAP_ERROR
    ∧ dap_which_uart consts8 6 (mkPort 5 4096 0 0) (mkPort 7 8192 0 0) = consts8.DAP_ERROR :=
  ⟨(dap_which_uart_spec consts8 5 (mkPort 5 4096 0 0) (mkPort 7 8192 0 0)).2.1
      (Or.inl (by decide)) rfl,
   (dap_which_uart_spec consts8 7 (mkPort 5 4096 0 0) (mkPort 7 8192 0 0)).2.2.1
      (Or.inl (by decide)) (by decide) rfl,
   (dap_which_uart_spec consts8 0 (mkPort 5 4096 0 0) (mkPort 7 8192 0 0)).2.2.2.2
      (by decide) (by decide) (Or.inl rfl),
   (dap_which_uart_spec consts8 (-1) (mkPort 5 4096 0 0) (mkPort 7 8192 0 0)).2.2.2.2
      (by decide) (by decide) (Or.inr rfl),
   (dap_which_uart_spec consts8 6 (mkPort 5 4096 0 0) (mkPort 7 8192 0 0)).2.2.2.1
      (by decide) (by decide)⟩

/-- `dap_rx_cp` leaves the descriptor and the transmit side untouched. -/
theorem dap_rx_cp_other_fields (k : DapConsts) (num : Nat) (src : Option (List Nat))
    (u : DAP_UART) :
    (dap_rx_cp k num src u).fd_uart = u.fd_uart
    ∧ (dap_rx_cp k num src u).buf_tx = u.buf_tx
    ∧ (dap_rx_cp k num src u).num_to_tx = u.num_to_tx
    ∧ (dap_rx_cp k num src u).buf_rx = u.buf_rx := by
  unfold dap_rx_cp
  split
  · simp
  · cases src <;> simp

/-- The copy loop changes no cell other than those listed by
`dap_rx_cp_loop_dsts`. -/
theorem dap_rx_cp_loop_frame (k : DapConsts) (ptr : Int) (a : Int) :
    ∀ (n : Nat) (src : List Nat) (i : Nat) (mem : Int → Nat),
      a ∉ dap_rx_cp_loop_dsts k ptr n i → (dap_rx_cp_loop k ptr n src i mem).2 a = mem a := by
  intro n
  induction n with
  | zero =>
    intro src i mem _
    rfl
  | succ n ih =>
    intro src i mem ha
    simp only [dap_rx_cp_loop_dsts, List.mem_cons, not_or] at ha
    show (dap_rx_cp_loop k ptr n src.tail _ _).2 a = mem a
    rw [ih _ _ _ ha.2]
    exact if_neg ha.1

/-- In the branch `ptr >= maxptr`, `dap_next_addr` returns the offset
`(read_ptr - buf_rx) + num_unread - DAP_UART_BUF_SIZE` itself as an address,
wherever `buf_rx` lies. -/
theorem dap_next_addr_wrap (k : DapConsts) (u : DAP_UART)
    (hwrap : u.buf_rx + (k.DAP_UART_BUF_SIZE : Int) ≤ u.read_ptr + (u.num_unread : Int)) :
    dap_next_addr k u
      = read_cursor u + (u.num_unread : Int) - (k.DAP_UART_BUF_SIZE : Int) := by
  unfold dap_next_addr read_cursor
  rw [if_pos (by omega)]
  omega

/-- For a port whose `buf_rx` lies at or above address `2 ^ 32 +
DAP_UART_BUF_SIZE`, every call of `dap_rx_cp` with `num != 0` that takes the
branch `ptr >= maxptr` of `dap_next_addr` stores outside `buf_rx` at its first
iteration, so it has no defined outcome. -/
theorem dap_rx_cp_exec_wrap_faults (k : DapConsts) (u : DAP_UART) (num : Nat)
    (bytes : List Nat) (hnum : num ≠ 0)
    (hwrap : u.buf_rx + (k.DAP_UART_BUF_SIZE : Int) ≤ u.read_ptr + (u.num_unread : Int))
    (hoff : read_cursor u + (u.num_unread : Int) < 2 * (k.DAP_UART_BUF_SIZE : Int))
    (hbase : 2 ^ 32 + (k.DAP_UART_BUF_SIZE : Int) ≤ u.buf_rx) :
    dap_rx_cp_exec k num (some bytes) u = none := by
  obtain ⟨n, rfl⟩ := Nat.exists_eq_succ_of_ne_zero hnum
  have hptr := dap_next_addr_wrap k u hwrap
  have hidx : (((dap_next_addr k u - u.buf_rx) % 2 ^ 32).toNat : Int) < 2 ^ 32 := by
    omega
  have hout : ¬ (u.buf_rx ≤ dap_next_addr k u
      + (((dap_next_addr k u - u.buf_rx) % 2 ^ 32).toNat : Int)
      ∧ dap_next_addr k u + (((dap_next_addr k u - u.buf_rx) % 2 ^ 32).toNat : Int)
        < u.buf_rx + (k.DAP_UART_BUF_SIZE : Int)) := by
    omega
  unfold dap_rx_cp_exec
  rw [if_neg]
  simp only [dap_rx_cp_dsts, Nat.succ_ne_zero, if_false, dap_rx_cp_loop_dsts, List.all_cons,
    decide_eq_false hout, Bool.false_and]
  simp

/-- C6 (the code departs from the claim).  `DAP_UART_BUF_SIZE = 8`, ports on
descriptors `5` and `7`.  The port on `5` has received `[1]` and then
`[0, 0, 0, 0]` since it was cleared, both by defined executions; its read
pointer is at offset `8` with `5` bytes unread.  For the delivery of `"AB"` on
descriptor `5`, `dap_next_addr` takes the branch `ptr = ptr - maxptr` and
returns the pointer difference `5` as an address; the two stores then go
through the addresses `4294963210` and `11`, neither of which is a cell of
`buf_rx` (cells `4096 .. 4103`), so `dap_uart_rx_copy` has no defined
outcome: it does not end with `num_unread` increased by `2` and everything
outside the owning port untouched. -/
theorem dap_uart_rx_copy_faults :
    (dap_rx_cp_exec consts8 1 (some [1])
        (dap_port_clr_rx_buffer consts8 (mkPort 5 4096 0 0))).isSome = true
    ∧ (dap_rx_cp_exec consts8 4 (some [0, 0, 0, 0])
        (dap_rx_cp consts8 1 (some [1])
          (dap_port_clr_rx_buffer consts8 (mkPort 5 4096 0 0)))).isSome = true
    ∧ port5_after_five.fd_uart = 5
    ∧ read_cursor port5_after_five = 8
    ∧ port5_after_five.num_unread = 5
    ∧ dap_which_uart consts8 5 port5_after_five (mkPort 7 8192 0 0) = consts8.DAP_DATA_SRC1
    ∧ dap_next_addr consts8 port5_after_five = 5
    ∧ dap_rx_cp_dsts consts8 2 (some [65, 66]) port5_after_five = [4294963210, 11]
    ∧ (dap_uart_rx_copy_exec consts8 2 5 (some [65, 66])
        ⟨port5_after_five, mkPort 7 8192 0 0, ⟨3, 2⟩⟩).isNone = true := by
  decide

/-- The scenario of section 8 of the specification: ports just cleared on
descriptors `5` and `7`, `"AB"` delivered on descriptor `5`.  Both stores go to
cells of the `buf_rx` of the port on `5`, the execution is defined, the port on
`5` ends with `num_unread = 2` and the port on `7` is the one it was. -/
theorem dap_uart_rx_copy_exec_scenario :
    dap_rx_cp_dsts consts8 2 (some [65, 66]) (mkPort 5 4096 0 0) = [4096, 4097]
    ∧ dap_uart_rx_copy_exec consts8 2 5 (some [65, 66])
        ⟨mkPort 5 4096 0 0, mkPort 7 8192 0 0, ⟨3, 2⟩⟩
      = some (consts8.DAP_DATA_SRC1,
          ⟨dap_rx_cp consts8 2 (some [65, 66]) (mkPort 5 4096 0 0), mkPort 7 8192 0 0, ⟨3, 2⟩⟩)
    ∧ (dap_rx_cp consts8 2 (some [65, 66]) (mkPort 5 4096 0 0)).num_unread = 2 := by
  refine ⟨by decide, ?_, by decide⟩
  have hw : to_uint (dap_which_uart consts8 5 (mkPort 5 4096 0 0) (mkPort 7 8192 0 0))
      = to_uint consts8.DAP_DATA_SRC1 := by decide
  have hn : to_uint 2 = 2 := by decide
  have hall : (dap_rx_cp_dsts consts8 2 (some [65, 66]) (mkPort 5 4096 0 0)).all
      (fun d => decide ((mkPort 5 4096 0 0).buf_rx ≤ d
        ∧ d < (mkPort 5 4096 0 0).buf_rx + (consts8.DAP_UART_BUF_SIZE : Int))) = true := by
    decide
  have hi : to_int (to_uint consts8.DAP_DATA_SRC1) = consts8.DAP_DATA_SRC1 := by decide
  unfold dap_uart_rx_copy_exec
  simp only [hw, if_true, hn, dap_rx_cp_exec, hall, Option.map_some', hi]

/-! ## Circular buffer: what `dap_rx_cp` computes -/

/-- The index of the copy loop after `n` iterations is `(i + n) mod
DAP_UART_BUF_SIZE`, for a start index inside the buffer. -/
theorem dap_rx_cp_loop_index (k : DapConsts) (ptr : Int) (h32 : k.DAP_UART_BUF_SIZE ≤ 2 ^ 32) :
    ∀ (n : Nat) (src : List Nat) (i : Nat) (mem : Int → Nat), i < k.DAP_UART_BUF_SIZE →
      (dap_rx_cp_loop k ptr n src i mem).1 = (i + n) % k.DAP_UART_BUF_SIZE := by
  intro n
  induction n with
  | zero =>
    intro src i mem hi
    simp [dap_rx_cp_loop, Nat.mod_eq_of_lt hi]
  | succ n ih =>
    intro src i mem hi
    have hstep : (i + 1) % 2 ^ 32 % k.DAP_UART_BUF_SIZE = (i + 1) % k.DAP_UART_BUF_SIZE := by
      by_cases hlt : i + 1 < 2 ^ 32
      · rw [Nat.mod_eq_of_lt hlt]
      · have hB : k.DAP_UART_BUF_SIZE = 2 ^ 32 := by omega
        have hi1 : i + 1 = 2 ^ 32 := by omega
        rw [hi1, hB]
        simp
    have hpos : 0 < k.DAP_UART_BUF_SIZE := by omega
    show (dap_rx_cp_loop k ptr n src.tail ((i + 1) % 2 ^ 32 % k.DAP_UART_BUF_SIZE) _).1 = _
    rw [hstep, ih _ _ _ (Nat.mod_lt _ hpos), Nat.mod_add_mod]
    congr 1
    omega

/-- The copy loop with one iteration stores the first source byte at
`ptr + index`. -/
theorem dap_rx_cp_loop_one (k : DapConsts) (ptr : Int) (src : List Nat) (i : Nat)
    (mem : Int → Nat) :
    (dap_rx_cp_loop k ptr 1 src i mem).2
      = fun a => if a = ptr + (i : Int) then src.headD 0 else mem a := rfl

/-- `dap_rx_cp` with `num != 0` and a non-null source, written out. -/
theorem dap_rx_cp_some (k : DapConsts) (num : Nat) (bytes : List Nat) (u : DAP_UART)
    (hnum : num ≠ 0) :
    dap_rx_cp k num (some bytes) u =
      { u with
        mem := (dap_rx_cp_loop k (dap_next_addr k u) num bytes
                  (((dap_next_addr k u - u.buf_rx) % 2 ^ 32).toNat) u.mem).2
        num_unread := u.num_unread + num
        read_ptr := dap_next_addr k u +
          ((dap_rx_cp_loop k (dap_next_addr k u) num bytes
                  (((dap_next_addr k u - u.buf_rx) % 2 ^ 32).toNat) u.mem).1 : Int) } := by
  simp [dap_rx_cp, hnum]

/-- After `dap_port_clr_rx_buffer` the read pointer is the start of `buf_rx`,
nothing is unread and every cell of `buf_rx` is `0`. -/
theorem dap_port_clr_rx_buffer_fields (k : DapConsts) (u : DAP_UART) :
    (dap_port_clr_rx_buffer k u).read_ptr = u.buf_rx
    ∧ (dap_port_clr_rx_buffer k u).num_unread = 0
    ∧ (dap_port_clr_rx_buffer k u).buf_rx = u.buf_rx
    ∧ ∀ i : Int, 0 ≤ i → i < (k.DAP_UART_BUF_SIZE : Int) →
        (dap_port_clr_rx_buffer k u).mem (u.buf_rx + i) = 0 := by
  refine ⟨rfl, rfl, rfl, ?_⟩
  intro i h0 h1
  simp only [dap_port_clr_rx_buffer]
  rw [if_pos (by omega)]

/-- `dap_port_close` resets the descriptor to `0`, clears both buffers and puts
`read_ptr` back at the start of `buf_rx`. -/
theorem dap_port_close_fields (k : DapConsts) (u : DAP_UART) :
    (dap_port_close k u).1.fd_uart = 0
    ∧ read_cursor (dap_port_close k u).1 = 0
    ∧ (dap_port_close k u).1.num_unread = 0
    ∧ (dap_port_close k u).1.num_to_tx = 0 := by
  simp [dap_port_close, dap_port_clr_tx_buffer, dap_port_clr_rx_buffer, read_cursor]

/-- The read pointer and unread count after `dap_rx_cp`, for a port whose
read pointer is at offset `r` and whose first free cell `r + num_unread` lies
before the end of the buffer: `num_unread` grows by `num`, and `read_ptr`
becomes `ptr + index`, where `ptr` already is `buf_rx + (r + num_unread)` and
`index` ends as `(r + num_unread + num) mod DAP_UART_BUF_SIZE`. -/
theorem dap_rx_cp_cursor_eq (k : DapConsts) (u : DAP_UART) (num : Nat) (bytes : List Nat)
    (r : Nat) (h32 : k.DAP_UART_BUF_SIZE ≤ 2 ^ 32) (hnum : num ≠ 0)
    (hr : u.read_ptr = u.buf_rx + (r : Int))
    (hfit : r + u.num_unread < k.DAP_UART_BUF_SIZE) :
    read_cursor (dap_rx_cp k num (some bytes) u)
        = ((r + u.num_unread + (r + u.num_unread + num) % k.DAP_UART_BUF_SIZE : Nat) : Int)
      ∧ (dap_rx_cp k num (some bytes) u).num_unread = u.num_unread + num := by
  have hnext : dap_next_addr k u = u.buf_rx + ((r + u.num_unread : Nat) : Int) := by
    unfold dap_next_addr
    simp only [hr]
    rw [if_neg (by omega)]
    push_cast
    omega
  have hidx : ((u.buf_rx + ((r + u.num_unread : Nat) : Int) - u.buf_rx) % 2 ^ 32).toNat
      = r + u.num_unread := by
    omega
  rw [dap_rx_cp_some k num bytes u hnum]
  simp only [read_cursor, hnext, hidx]
  rw [dap_rx_cp_loop_index k _ h32 num bytes _ _ hfit]
  refine ⟨?_, trivial⟩
  push_cast
  omega

/-- C1 (the code departs from the claim).  On a cleared port, one `dap_rx_cp`
of a single byte `b` stores `b` at offset `0` and moves `read_ptr` to offset
`1`; the one unread byte read back at `read_ptr` is the `0` left by the clear,
so the unread region differs from the appended `[b]` whenever `b` is not `0`.
Holds for every buffer size from `2` up. -/
theorem rx_round_trip_lost (k : DapConsts) (u : DAP_UART) (b : Nat)
    (h2 : 2 ≤ k.DAP_UART_BUF_SIZE) (h32 : k.DAP_UART_BUF_SIZE ≤ 2 ^ 32) :
    spec_unread_region k (dap_rx_cp k 1 (some [b]) (dap_port_clr_rx_buffer k u)) = [0]
    ∧ (b ≠ 0 →
        spec_unread_region k (dap_rx_cp k 1 (some [b]) (dap_port_clr_rx_buffer k u)) ≠ [b]) := by
  suffices hreg :
      spec_unread_region k (dap_rx_cp k 1 (some [b]) (dap_port_clr_rx_buffer k u)) = [0] by
    refine ⟨hreg, fun hb h => hb ?_⟩
    rw [hreg] at h
    exact (List.cons.inj h).1.symm
  obtain ⟨hrp, hnu, hbr, hmem⟩ := dap_port_clr_rx_buffer_fields k u
  have hc := dap_rx_cp_cursor_eq k (dap_port_clr_rx_buffer k u) 1 [b] 0 h32 (by decide)
    (by rw [hrp, hbr]; simp) (by rw [hnu]; omega)
  rw [hnu] at hc
  have hmod : (0 + 0 + 1) % k.DAP_UART_BUF_SIZE = 1 := Nat.mod_eq_of_lt (by omega)
  rw [hmod] at hc
  have hcur : read_cursor (dap_rx_cp k 1 (some [b]) (dap_port_clr_rx_buffer k u)) = 1 := by
    rw [hc.1]
    rfl
  have hun : (dap_rx_cp k 1 (some [b]) (dap_port_clr_rx_buffer k u)).num_unread = 1 := by
    rw [hc.2]
  have hbuf : (dap_rx_cp k 1 (some [b]) (dap_port_clr_rx_buffer k u)).buf_rx = u.buf_rx :=
    (dap_rx_cp_other_fields k 1 (some [b]) (dap_port_clr_rx_buffer k u)).2.2.2.trans hbr
  have hnext : dap_next_addr k (dap_port_clr_rx_buffer k u) = u.buf_rx := by
    unfold dap_next_addr
    rw [hrp, hnu, hbr, if_neg (by push_cast; omega)]
    simp
  have hcell : (dap_rx_cp k 1 (some [b]) (dap_port_clr_rx_buffer k u)).mem (u.buf_rx + 1) = 0 := by
    rw [dap_rx_cp_some k 1 [b] _ (by decide)]
    simp only [dap_rx_cp_loop_one, hnext, hbr]
    rw [if_neg (by omega)]
    exact hmem 1 (by omega) (by omega)
  have hm1 : ((1 : Int) + ((0 : Nat) : Int)) % (k.DAP_UART_BUF_SIZE : Int) = 1 := by
    apply Int.emod_eq_of_lt <;> omega
  unfold spec_unread_region
  rw [hun]
  show [rx_cell _ ((read_cursor _ + ((0 : Nat) : Int)) % (k.DAP_UART_BUF_SIZE : Int))] = [0]
  rw [rx_cell, hcur, hbuf, hm1, hcell]

/-- C1 at `DAP_UART_BUF_SIZE = 8`: after clearing and appending `[1]`, the
unread region reads `[0]`, which is not the appended `[1]`. -/
theorem rx_round_trip_lost_witness :
    spec_unread_region consts8
        (dap_rx_cp consts8 1 (some [1]) (dap_port_clr_rx_buffer consts8 (mkPort 5 4096 0 0)))
      = [0]
    ∧ spec_unread_region consts8
        (dap_rx_cp consts8 1 (some [1]) (dap_port_clr_rx_buffer consts8 (mkPort 5 4096 0 0)))
      ≠ [1] :=
  ⟨(rx_round_trip_lost consts8 (mkPort 5 4096 0 0) 1 (by decide) (by decide)).1,
   (rx_round_trip_lost consts8 (mkPort 5 4096 0 0) 1 (by decide) (by decide)).2 (by decide)⟩

/-- C2 (the code departs from the claim), on the scenario of the claim:
`DAP_UART_BUF_SIZE = 8`, `read_ptr` at offset `6`, nothing unread, append
`[1, 2, 3, 4]`.  The stores go to `ptr + index` with `ptr = buf_rx + 6` and
`index = 6, 7, 0, 1`, that is to offsets `12, 13, 6, 7`: offsets `12` and `13`
are outside the buffer, offsets `6` and `7` end up holding `3` and `4`, and
offsets `0` and `1` are not written.  `num_unread` becomes `4`. -/
theorem dap_rx_cp_store_offsets :
    rx_cell (dap_rx_cp consts8 4 (some [1, 2, 3, 4]) (mkPort 5 4096 6 0)) 12 = 1
    ∧ rx_cell (dap_rx_cp consts8 4 (some [1, 2, 3, 4]) (mkPort 5 4096 6 0)) 13 = 2
    ∧ rx_cell (dap_rx_cp consts8 4 (some [1, 2, 3, 4]) (mkPort 5 4096 6 0)) 6 = 3
    ∧ rx_cell (dap_rx_cp consts8 4 (some [1, 2, 3, 4]) (mkPort 5 4096 6 0)) 7 = 4
    ∧ rx_cell (dap_rx_cp consts8 4 (some [1, 2, 3, 4]) (mkPort 5 4096 6 0)) 0 = 0
    ∧ rx_cell (dap_rx_cp consts8 4 (some [1, 2, 3, 4]) (mkPort 5 4096 6 0)) 1 = 0
    ∧ (dap_rx_cp consts8 4 (some [1, 2, 3, 4]) (mkPort 5 4096 6 0)).num_unread = 4 := by
  decide

/-- C3 (the code departs from the claim).  For every buffer size `B` from `5`
up: clear the port, append one byte, append `B - 4` bytes (`B - 3 < B` bytes
in all).  The read pointer then is at offset `B`, one past the last cell of
`buf_rx`. -/
theorem read_cursor_escapes (k : DapConsts) (u : DAP_UART)
    (h5 : 5 ≤ k.DAP_UART_BUF_SIZE) (h32 : k.DAP_UART_BUF_SIZE ≤ 2 ^ 32) :
    1 + (k.DAP_UART_BUF_SIZE - 4) < k.DAP_UART_BUF_SIZE
    ∧ read_cursor
        (dap_rx_cp k (k.DAP_UART_BUF_SIZE - 4) (some (List.replicate (k.DAP_UART_BUF_SIZE - 4) 0))
          (dap_rx_cp k 1 (some [1]) (dap_port_clr_rx_buffer k u)))
      = (k.DAP_UART_BUF_SIZE : Int) := by
  refine ⟨by omega, ?_⟩
  obtain ⟨hrp, hnu, hbr, -⟩ := dap_port_clr_rx_buffer_fields k u
  have hc := dap_rx_cp_cursor_eq k (dap_port_clr_rx_buffer k u) 1 [1] 0 h32 (by decide)
    (by rw [hrp, hbr]; simp) (by rw [hnu]; omega)
  rw [hnu] at hc
  have hmod : (0 + 0 + 1) % k.DAP_UART_BUF_SIZE = 1 := Nat.mod_eq_of_lt (by omega)
  obtain ⟨hcur, hun⟩ := hc
  rw [hmod] at hcur
  have hrp1 : (dap_rx_cp k 1 (some [1]) (dap_port_clr_rx_buffer k u)).read_ptr
      = (dap_rx_cp k 1 (some [1]) (dap_port_clr_rx_buffer k u)).buf_rx + ((1 : Nat) : Int) := by
    unfold read_cursor at hcur
    push_cast at hcur ⊢
    omega
  have hc2 := dap_rx_cp_cursor_eq k (dap_rx_cp k 1 (some [1]) (dap_port_clr_rx_buffer k u))
    (k.DAP_UART_BUF_SIZE - 4) (List.replicate (k.DAP_UART_BUF_SIZE - 4) 0) 1 h32 (by omega)
    hrp1 (by rw [hun]; omega)
  rw [hc2.1, hun]
  have hmod2 : (1 + (0 + 1) + (k.DAP_UART_BUF_SIZE - 4)) % k.DAP_UART_BUF_SIZE
      = k.DAP_UART_BUF_SIZE - 2 := by
    rw [Nat.mod_eq_of_lt (by omega)]
    omega
  rw [hmod2]
  push_cast
  omega

/-- C3 at `DAP_UART_BUF_SIZE = 8`: clear, append `[1]`, append four bytes;
five bytes in all, and the read pointer is at offset `8`. -/
theorem read_cursor_escapes_witness :
    1 + (consts8.DAP_UART_BUF_SIZE - 4) < consts8.DAP_UART_BUF_SIZE
    ∧ read_cursor
        (dap_rx_cp consts8 (consts8.DAP_UART_BUF_SIZE - 4)
          (some (List.replicate (consts8.DAP_UART_BUF_SIZE - 4) 0))
          (dap_rx_cp consts8 1 (some [1]) (dap_port_clr_rx_buffer consts8 (mkPort 5 4096 0 0))))
      = (consts8.DAP_UART_BUF_SIZE : Int) :=
  read_cursor_escapes consts8 (mkPort 5 4096 0 0) (by decide) (by decide)

/-- C10 (the code departs from the claim).  For every port with nothing unread
whose read pointer is at an offset `r` with `1 <= r < DAP_UART_BUF_SIZE`, and
every non-empty byte sequence of length `n`: `dap_rx_cp` adds `n` to
`num_unread`, and the new offset of `read_ptr` is `r + (r + n) mod
DAP_UART_BUF_SIZE`, which is not the old offset advanced by `n` with
wraparound, `(r + n) mod DAP_UART_BUF_SIZE`. -/
theorem dap_rx_cp_cursor_overshoots (k : DapConsts) (u : DAP_UART) (bytes : List Nat) (r : Nat)
    (h32 : k.DAP_UART_BUF_SIZE ≤ 2 ^ 32) (hne : bytes ≠ [])
    (hr : read_cursor u = (r : Int)) (hr1 : 1 ≤ r) (hrB : r < k.DAP_UART_BUF_SIZE)
    (hu : u.num_unread = 0) :
    read_cursor (dap_rx_cp k bytes.length (some bytes) u)
        = (r : Int) + (((r + bytes.length) % k.DAP_UART_BUF_SIZE : Nat) : Int)
    ∧ read_cursor (dap_rx_cp k bytes.length (some bytes) u)
        ≠ (read_cursor u + (bytes.length : Int)) % (k.DAP_UART_BUF_SIZE : Int)
    ∧ (dap_rx_cp k bytes.length (some bytes) u).num_unread = u.num_unread + bytes.length := by
  have hlen : bytes.length ≠ 0 := by
    intro h
    exact hne (List.length_eq_zero.mp h)
  have hrp : u.read_ptr = u.buf_rx + (r : Int) := by
    unfold read_cursor at hr
    omega
  have hc := dap_rx_cp_cursor_eq k u bytes.length bytes r h32 hlen hrp (by rw [hu]; omega)
  rw [hu] at hc
  have hcur : read_cursor (dap_rx_cp k bytes.length (some bytes) u)
      = (r : Int) + (((r + bytes.length) % k.DAP_UART_BUF_SIZE : Nat) : Int) := by
    rw [hc.1]
    push_cast
    simp
  refine ⟨hcur, ?_, by rw [hc.2, hu]⟩
  rw [hcur, hr]
  have hcast : ((r : Int) + (bytes.length : Int)) % (k.DAP_UART_BUF_SIZE : Int)
      = (((r + bytes.length) % k.DAP_UART_BUF_SIZE : Nat) : Int) := by
    push_cast
    rfl
  rw [hcast]
  omega

/-- C10 at `DAP_UART_BUF_SIZE = 8`, `read_ptr` at offset `1`, nothing unread,
append `[9]`: the new offset is `3`, not `(1 + 1) mod 8 = 2`. -/
theorem dap_rx_cp_cursor_overshoots_witness :
    read_cursor (dap_rx_cp consts8 1 (some [9]) (mkPort 5 4096 1 0)) = 3
    ∧ (read_cursor (mkPort 5 4096 1 0) + 1) % (consts8.DAP_UART_BUF_SIZE : Int) = 2
    ∧ (dap_rx_cp consts8 1 (some [9]) (mkPort 5 4096 1 0)).num_unread = 1 :=
  ⟨(dap_rx_cp_cursor_overshoots consts8 (mkPort 5 4096 1 0) [9] 1 (by decide) (by decide)
      (by decide) (by decide) (by decide) rfl).1,
   by decide,
   (dap_rx_cp_cursor_overshoots consts8 (mkPort 5 4096 1 0) [9] 1 (by decide) (by decide)
      (by decide) (by decide) (by decide) rfl).2.2⟩

/-! ## Receive thread -/

/-- C9 (the code departs from the claim).  Processing a hang-up event
(`events == EPOLLHUP`) for any descriptor leaves `uart1`, `uart2` and `uep`
as they were: `numOpenFds` is not decremented and the `fd_uart` of the port is
not reset; the only system call is the `close` whose argument the source leaves
unwritten.  Accordingly, after the thread has handled a batch holding one
hang-up event, `numOpenFds` still is `DAP_NUM_OF_SRC`. -/
theorem dap_uart_epoll_event_hangup (k : DapConsts)
    (os_read : List SysCall → Int → Int × List Nat) (hup_arg : Int) (g : Globals)
    (tr : List SysCall) (fd : Int) :
    dap_uart_epoll_event k os_read hup_arg (g, tr) ⟨EPOLLHUP, fd⟩
      = (g, tr ++ [SysCall.close hup_arg])
    ∧ (dap_uart_epoll_thr k os_read hup_arg [WaitResult.ready [⟨EPOLLHUP, fd⟩]] g).1.uep.numOpenFds
      = k.DAP_NUM_OF_SRC := by
  have hin : ¬ (EPOLLHUP &&& EPOLLIN ≠ 0) := by decide
  have hhup : EPOLLHUP &&& EPOLLHUP ≠ 0 := by decide
  have hev : ∀ (st : Globals × List SysCall),
      dap_uart_epoll_event k os_read hup_arg st ⟨EPOLLHUP, fd⟩
        = (st.1, st.2 ++ [SysCall.close hup_arg]) := by
    intro st
    unfold dap_uart_epoll_event
    rw [if_neg hin, if_pos hhup]
  refine ⟨hev (g, tr), ?_⟩
  unfold dap_uart_epoll_thr dap_uart_epoll_loop
  split
  · simp only [List.foldl_cons, List.foldl_nil, hev]
    unfold dap_uart_epoll_loop
    rfl
  · rfl

end Dap
